import Mathlib

/-!
Verification of the CourseMaster retrieval-and-ranking core against its
natural-language specification.

The Python source under `src/` is shallowly embedded here:
* `src/core/vector_store.py` — `VectorStore._normalize_chunk_text`,
  `VectorStore._deduplicate_hits`, `VectorStore.search`;
* `src/core/chunking.py` — `chunk_document` (its post-splitter merge pass);
* `src/core/retrieval.py` — `retrieve_chunks`;
* `src/core/database.py` — `add_document`, `get_document_by_hash`,
  `add_problem`, `_ranking_expression`, `get_top_chunks_for_exam`.

External collaborators (the Chroma nearest-neighbour index, the embedding
model, the langchain recursive text splitter, SQLite itself) are modelled as
inputs: the index is a function from a fetch count to scored rows, the
splitter's output is a list of text fragments, and the SQL queries are given
their relational semantics over in-memory lists of rows.  Python floats are
modelled as rationals, Python `int` as `Int`, Python `Optional[T]` as
`Option T`.
-/

namespace CourseMaster

/-- A chunk row as stored by the system (`src/core/types.py`, `Chunk`);
the numpy embedding payload is owned by the external index and omitted. -/
structure Chunk where
  chunk_id : String
  doc_id : String
  chunk_text : String
  chunk_index : Int
  deriving Repr, DecidableEq

/-- `VectorSearchResult` from `src/core/vector_store.py`: a chunk paired with
its reported similarity score. -/
structure VectorSearchResult where
  chunk : Chunk
  similarity_score : ℚ
  deriving Repr, DecidableEq

/-- Python `str.lower()`: lowercase each character. -/
def py_lower (s : String) : String :=
  String.mk (s.data.map Char.toLower)

/-- Helper for Python `str.split()`: walk the characters accumulating the
current word (`acc`, reversed); whitespace ends the current word, and empty
words are dropped, so only maximal non-whitespace runs are produced. -/
def py_split_aux : List Char → List Char → List String
  | [], acc => if acc = [] then [] else [String.mk acc.reverse]
  | c :: cs, acc =>
    if c.isWhitespace then
      if acc = [] then py_split_aux cs []
      else String.mk acc.reverse :: py_split_aux cs []
    else py_split_aux cs (c :: acc)

/-- Python `str.split()` with no argument: the maximal runs of
non-whitespace characters (no empty fields, leading/trailing whitespace
ignored). -/
def py_split (s : String) : List String :=
  py_split_aux s.data []

/-- Python `sep.join(parts)`. -/
def py_join (sep : String) : List String → String
  | [] => ""
  | [x] => x
  | x :: xs => x ++ sep ++ py_join sep xs

/-- Python `str.strip()` with no argument: drop leading and trailing
whitespace. -/
def py_strip (s : String) : String :=
  String.mk
    (((s.data.dropWhile Char.isWhitespace).reverse.dropWhile
      Char.isWhitespace).reverse)

/-- `VectorStore._normalize_chunk_text`:
`" ".join(text.split()).strip().lower()` — split on whitespace runs
(dropping empty fields, as Python `str.split()` does), re-join with single
spaces, strip, lowercase. -/
def normalize_chunk_text (text : String) : String :=
  py_lower (py_strip (py_join " " (py_split text)))

/-- The loop body of `VectorStore._deduplicate_hits`: walk the hits carrying
the set of already-seen normalized texts (`seen`) and the number of hits
accepted so far (`count`); skip hits whose normalized text is empty or
already seen; after accepting a hit, stop as soon as `limit` accepted hits
exist (the `if len(unique_hits) >= limit: break` line). -/
def dedupAux (limit : Int) : List VectorSearchResult → List String → Int →
    List VectorSearchResult
  | [], _, _ => []
  | h :: hs, seen, count =>
    let n := normalize_chunk_text h.chunk.chunk_text
    if n = "" then dedupAux limit hs seen count
    else if n ∈ seen then dedupAux limit hs seen count
    else if count + 1 ≥ limit then [h]
    else h :: dedupAux limit hs (n :: seen) (count + 1)

/-- `VectorStore._deduplicate_hits(hits, limit)`. -/
def deduplicate_hits (hits : List VectorSearchResult) (limit : Int) :
    List VectorSearchResult :=
  dedupAux limit hits [] 0

/-- `fetch_k = max(k * 4, k + 5)` from `VectorStore.search` (line 84):
how many raw neighbours are requested from the index before deduplication. -/
def fetch_k (k : Int) : Int := max (k * 4) (k + 5)

/-- Line 92 of `VectorStore.search`: `similarity = 1.0 - distance`.
No clamping is applied in the code. -/
def similarity_of_distance (distance : ℚ) : ℚ := 1 - distance

/-- `VectorStore.search(query_text, k)` (lines 78–103of
`src/core/vector_store.py`), with the external Chroma index abstracted as
`index : Int → List (Chunk × ℚ)` mapping a requested neighbour count to the
scored rows it returns (chunk metadata together with its cosine DISTANCE).
The code requests `fetch_k k` rows, converts each distance to a similarity
via `1 - distance`, and deduplicates with limit `k`.
Note: the function takes no `allowed_doc_ids` argument and applies no
`doc_id` filtering — exactly as in the source. -/
def search (index : Int → List (Chunk × ℚ)) (k : Int) :
    List VectorSearchResult :=
  let results := index (fetch_k k)
  let hits := results.map fun r =>
    { chunk := r.1, similarity_score := similarity_of_distance r.2 }
  deduplicate_hits hits k

/-! ### Chunking (`src/core/chunking.py`) -/

/-- The merge loop of `chunk_document` (lines 35–50 of
`src/core/chunking.py`), carrying the pending `buffer`: an empty buffer is
replaced by the next piece; a buffer shorter than `MIN_CHUNK_SIZE = 300`
whose combined length with the next piece is at most
`MAX_CHUNK_SIZE = 1000` is merged with it via a newline; otherwise the
buffer is flushed and the piece starts a new buffer; a non-empty final
buffer is flushed at the end. -/
def mergeLoop : String → List String → List String
  | buffer, [] => if buffer = "" then [] else [buffer]
  | buffer, piece :: rest =>
    if buffer = "" then mergeLoop piece rest
    else if buffer.length < 300 ∧ buffer.length + piece.length ≤ 1000 then
      mergeLoop (buffer ++ "\n" ++ piece) rest
    else buffer :: mergeLoop piece rest

/-- `chunk_document` (`src/core/chunking.py`), with the external langchain
`RecursiveCharacterTextSplitter` abstracted: `split_texts` is the fragment
list the splitter produced for the document's text (the splitter guarantees
each fragment is at most 1000 characters).  The merge pass runs, and each
resulting text gets a zero-based index and the derived chunk id
`f"\x7bdoc_id\x7d-chunk-\x7bi\x7d"`. -/
def chunk_document (doc_id : String) (split_texts : List String) :
    List Chunk :=
  let merged_texts := mergeLoop "" split_texts
  (merged_texts.enum).map fun p =>
    { chunk_id := doc_id ++ "-chunk-" ++ toString p.1
      doc_id := doc_id
      chunk_text := p.2
      chunk_index := p.1 }

/-! ### Retrieval bridge (`src/core/retrieval.py`) -/

/-- The dynamically typed `question_text` argument of `retrieve_chunks`:
either an actual string or a value of some other Python type. -/
inductive QueryArg where
  | ofString (s : String)
  | nonString
  deriving Repr, DecidableEq

/-- The exceptions `retrieve_chunks` can raise. -/
inductive RetrievalError where
  | typeError
  | valueError
  deriving Repr, DecidableEq

/-- `retrieve_chunks(question_text, k, vector_store, allowed_doc_ids)`
(lines 11–38 of `src/core/retrieval.py`).  The injected vector store is
abstracted as `store : String → Int → List VectorSearchResult` (query text
and `k` to results).  The code first raises `TypeError` for a non-string
question, then `ValueError` for `k <= 0`, then returns `[]` for a
whitespace-only question without touching the store, and otherwise searches
with the stripped query. -/
def retrieve_chunks (question_text : QueryArg) (k : Int)
    (store : String → Int → List VectorSearchResult) :
    Except RetrievalError (List VectorSearchResult) :=
  match question_text with
  | .nonString => .error .typeError
  | .ofString s =>
    if k ≤ 0 then .error .valueError
    else
      let query := py_strip s
      if query = "" then .ok []
      else .ok (store query k)

/-! ### Metadata store (`src/core/database.py`) -/

/-- A row of the `documents` table. -/
structure DocumentRow where
  doc_id : String
  course_id : String
  original_filename : String
  extracted_text : String
  content_hash : String
  deriving Repr, DecidableEq

/-- `get_document_by_hash(course_id, content_hash)` (lines 592–604):
`SELECT ... WHERE course_id = ? AND content_hash = ? LIMIT 1` — the first
matching row in insertion order, if any. -/
def get_document_by_hash (documents : List DocumentRow)
    (course_id content_hash : String) : Option DocumentRow :=
  documents.find? fun d =>
    d.course_id = course_id ∧ d.content_hash = content_hash

/-- The fresh `Document` row `add_document` builds before inserting. -/
def newDocumentRow (new_id filename text course_id content_hash : String) :
    DocumentRow :=
  { doc_id := new_id
    course_id := course_id
    original_filename := filename
    extracted_text := text
    content_hash := content_hash }

/-- `add_document(filename, text, course_id)` (lines 532–570).  The SHA-256
content hasher is an external capability, abstracted as the deterministic
function `hash`; the freshly drawn `uuid4` document id is the explicit
argument `new_id`.  An empty `course_id` raises `ValueError`; if a document
with the same `(course_id, hash text)` already exists the existing row is
returned and nothing is inserted; otherwise a new row is appended. -/
def add_document (hash : String → String) (documents : List DocumentRow)
    (new_id filename text course_id : String) :
    Except Unit (DocumentRow × List DocumentRow) :=
  if course_id = "" then .error ()
  else
    match get_document_by_hash documents course_id (hash text) with
    | some existing => .ok (existing, documents)
    | none =>
      .ok (newDocumentRow new_id filename text course_id (hash text),
        documents ++ [newDocumentRow new_id filename text course_id (hash text)])

/-- A row of the `problems` table (`assignment_id` and `problem_number` are
nullable columns). -/
structure ProblemRow where
  problem_id : String
  exam_id : String
  assignment_id : Option String
  problem_number : Option Int
  problem_text : String
  deriving Repr, DecidableEq

/-- The exceptions `add_problem` can raise: `ValueError("exam_id is
required ...")`; `ValueError("This assignment already has a problem with
that number.")` from the application-level clash check; and
`sqlite3.IntegrityError` from the schema's partial unique index
`idx_problems_assignment_number ON problems(assignment_id, problem_number)
WHERE assignment_id IS NOT NULL AND problem_number IS NOT NULL`
(database.py lines 268–274).  The spec's `ConstraintViolation` taxonomy
(§7, "duplicate problem number within an assignment — raised synchronously
from the write path") covers the latter two. -/
inductive AddProblemError where
  | missingExamId
  | constraintViolation
  | integrityError
  deriving Repr, DecidableEq

/-- The fresh `Problem` row `add_problem` builds before inserting. -/
def newProblemRow (new_id text exam_id : String)
    (assignment_id : Option String) (problem_number : Option Int) :
    ProblemRow :=
  { problem_id := new_id
    exam_id := exam_id
    assignment_id := assignment_id
    problem_number := problem_number
    problem_text := text }

/-- The duplicate-pair test shared by the application-level clash check
(`SELECT problem_id FROM problems WHERE assignment_id = ? AND
problem_number = ?`, reached only with non-null binds) and the partial
unique index: an existing row with the same non-null
`(assignment_id, problem_number)` pair.  SQL `=` never matches `NULL`,
exactly as `Option` equality against `some _` never matches `none`. -/
def problemPairClash (problems : List ProblemRow)
    (assignment_id : Option String) (problem_number : Option Int) : Bool :=
  problems.any fun p =>
    p.assignment_id = assignment_id ∧ p.problem_number = problem_number

/-- `add_problem(text, exam_id, assignment_id, problem_number)` (lines
763–813), run against the schema of `database.py`.  A falsy (`None` or
empty) `exam_id` raises `ValueError`; the application-level clash check
runs only under `if assignment_id and problem_number is not None:` — i.e.
only when `assignment_id` is Python-truthy (non-null AND non-empty) and
`problem_number` is non-null — and raises `ValueError` when some existing
row has the same `(assignment_id, problem_number)` pair.  Otherwise the
`INSERT` executes, and the partial unique index
`idx_problems_assignment_number` rejects it (`sqlite3.IntegrityError`,
inserting nothing) whenever both fields are non-null (including an
empty-string `assignment_id`, which is not SQL `NULL`) and the pair
already exists; else the new row (with the fresh uuid `new_id`) is
appended.  Foreign-key existence of the referenced exam/assignment rows is
a precondition of every call considered here and is not modelled as a
failure mode. -/
def add_problem (problems : List ProblemRow) (new_id text exam_id : String)
    (assignment_id : Option String) (problem_number : Option Int) :
    Except AddProblemError (ProblemRow × List ProblemRow) :=
  if exam_id = "" then .error .missingExamId
  else if (assignment_id ≠ none ∧ assignment_id ≠ some "") ∧
      problem_number ≠ none then
    if problemPairClash problems assignment_id problem_number then
      .error .constraintViolation
    else
      .ok (newProblemRow new_id text exam_id assignment_id problem_number,
        problems ++
          [newProblemRow new_id text exam_id assignment_id problem_number])
  else if assignment_id ≠ none ∧ problem_number ≠ none ∧
      problemPairClash problems assignment_id problem_number then
    .error .integrityError
  else
    .ok (newProblemRow new_id text exam_id assignment_id problem_number,
      problems ++
        [newProblemRow new_id text exam_id assignment_id problem_number])

/-- A row of the append-only `retrieval_log` table. -/
structure RetrievalRow where
  problem_id : String
  retrieved_chunk_id : String
  similarity_score : ℚ
  deriving Repr, DecidableEq

/-- The relational state the ranking queries read: the `problems`, `chunks`
and `retrieval_log` tables (primary keys are unique in any reachable
state). -/
structure RankingState where
  problems : List ProblemRow
  chunks : List Chunk
  retrieval_log : List RetrievalRow
  deriving Repr

/-- One output row of `get_top_chunks_for_exam`; `score` is the SQL
aggregate `rank_value` (an exact count for `frequency`, a float sum for
`weighted_sum` — both modelled as `ℚ`). -/
structure TopChunkRow where
  chunk_id : String
  doc_id : String
  chunk_text : String
  chunk_index : Int
  score : ℚ
  deriving Repr, DecidableEq

/-- `DatabaseManager._ranking_expression` (lines 746–753): the aggregate
over one chunk's joined log rows.  `"frequency"` is
`COUNT(DISTINCT rl.problem_id)`, `"weighted_sum"` is
`SUM(rl.similarity_score)`, and any other (lower-cased) strategy name falls
back to `"frequency"` via `strategies.get(..., strategies["frequency"])`. -/
def ranking_expression (ranking_strategy : String) :
    List RetrievalRow → ℚ :=
  if py_lower ranking_strategy = "frequency" then
    fun rows => ((rows.map fun r => r.problem_id).dedup.length : ℚ)
  else if py_lower ranking_strategy = "weighted_sum" then
    fun rows => (rows.map fun r => r.similarity_score).sum
  else
    fun rows => ((rows.map fun r => r.problem_id).dedup.length : ℚ)

/-- The join in `get_top_chunks_for_exam`:
`FROM retrieval_log rl JOIN problems p ON p.problem_id = rl.problem_id
JOIN chunks c ON c.chunk_id = rl.retrieved_chunk_id WHERE p.exam_id = ?` —
the log rows whose problem belongs to the exam and whose chunk id resolves
in the `chunks` table. -/
def joinedLogRows (st : RankingState) (exam_id : String) :
    List RetrievalRow :=
  st.retrieval_log.filter fun r =>
    (st.problems.any fun p =>
      p.problem_id = r.problem_id ∧ p.exam_id = exam_id) ∧
    (st.chunks.any fun c => c.chunk_id = r.retrieved_chunk_id)

/-- Insertion step for the `ORDER BY` sort. -/
def insertLe {α : Type} (le : α → α → Prop) [DecidableRel le] (a : α) :
    List α → List α
  | [] => [a]
  | b :: bs => if le a b then a :: b :: bs else b :: insertLe le a bs

/-- Insertion sort realising a SQL `ORDER BY` whose key (here
`rank_value DESC, chunk_id ASC`) totally orders the grouped rows. -/
def sortByLe {α : Type} (le : α → α → Prop) [DecidableRel le] :
    List α → List α
  | [] => []
  | a :: as => insertLe le a (sortByLe le as)

/-- SQLite's ordering of TEXT values: byte-wise `memcmp` on the UTF-8
encodings, here lexicographic comparison of the code points (the ids
compared are ASCII, where the two agree). -/
def sqlTextLe : List Char → List Char → Bool
  | [], _ => true
  | _ :: _, [] => false
  | a :: as, b :: bs =>
    if a.toNat < b.toNat then true
    else if b.toNat < a.toNat then false
    else sqlTextLe as bs

/-- The `ORDER BY rank_value DESC, c.chunk_id` comparison on grouped
rows. -/
def topChunkLe (a b : TopChunkRow) : Prop :=
  b.score < a.score ∨
    (a.score = b.score ∧ sqlTextLe a.chunk_id.data b.chunk_id.data = true)

instance : DecidableRel topChunkLe := fun a b => by
  unfold topChunkLe
  infer_instance

/-- `get_top_chunks_for_exam(exam_id, ranking_strategy, limit)` (lines
868–908 of `src/core/database.py`): `limit <= 0` short-circuits to `[]`;
otherwise the log is joined to the exam's problems and the chunk table,
grouped by chunk (the group key `c.chunk_id, c.doc_id, c.chunk_text,
c.chunk_index` is the full chunk row, unique per chunk id), aggregated by
`_ranking_expression`, ordered by `rank_value DESC, c.chunk_id`, and cut to
`limit` rows. -/
def get_top_chunks_for_exam (st : RankingState) (exam_id : String)
    (ranking_strategy : String) (limit : Int) : List TopChunkRow :=
  if limit ≤ 0 then []
  else
    let joined := joinedLogRows st exam_id
    let groups :=
      (st.chunks.filter fun c =>
        joined.any fun r => r.retrieved_chunk_id = c.chunk_id).map fun c =>
        let rows := joined.filter fun r => r.retrieved_chunk_id = c.chunk_id
        { chunk_id := c.chunk_id
          doc_id := c.doc_id
          chunk_text := c.chunk_text
          chunk_index := c.chunk_index
          score := ranking_expression ranking_strategy rows : TopChunkRow }
    (sortByLe topChunkLe groups).take limit.toNat

/-! ### The retrieval log of the ranking claims

The data set fixed by the spec's ranking properties: one exam `exam-1`
with problems `p1`, `p2` and retrieval events
`{(p1,cA,0.9), (p1,cB,0.5), (p2,cA,0.8), (p2,cC,0.7)}`, the chunks `cA`,
`cB`, `cC` being regular rows of the chunk table. -/

/-- The relational state holding exactly the retrieval events
`{(p1,cA,0.9), (p1,cB,0.5), (p2,cA,0.8), (p2,cC,0.7)}` for the two
problems `p1`, `p2` of exam `exam-1`. -/
def rankingClaimState : RankingState :=
  { problems := [
      { problem_id := "p1", exam_id := "exam-1", assignment_id := none,
        problem_number := none, problem_text := "problem one" },
      { problem_id := "p2", exam_id := "exam-1", assignment_id := none,
        problem_number := none, problem_text := "problem two" }]
    chunks := [
      { chunk_id := "cA", doc_id := "doc-1", chunk_text := "Chunk A",
        chunk_index := 0 },
      { chunk_id := "cB", doc_id := "doc-1", chunk_text := "Chunk B",
        chunk_index := 1 },
      { chunk_id := "cC", doc_id := "doc-2", chunk_text := "Chunk C",
        chunk_index := 0 }]
    retrieval_log := [
      { problem_id := "p1", retrieved_chunk_id := "cA",
        similarity_score := 9/10 },
      { problem_id := "p1", retrieved_chunk_id := "cB",
        similarity_score := 1/2 },
      { problem_id := "p2", retrieved_chunk_id := "cA",
        similarity_score := 8/10 },
      { problem_id := "p2", retrieved_chunk_id := "cC",
        similarity_score := 7/10 }] }

/-- `py_lower` fixes the already-lowercase strategy name
`"weighted_sum"`. -/
theorem py_lower_weighted_sum : py_lower "weighted_sum" = "weighted_sum" := by
  decide

/-- The `"weighted_sum"` strategy aggregates by summing the logged
similarity scores. -/
theorem ranking_expression_weighted_sum :
    ranking_expression "weighted_sum" =
      fun rows => (rows.map fun r => r.similarity_score).sum := by
  simp [ranking_expression, py_lower_weighted_sum]

/-- C2: on the retrieval log {(p1,cA,0.9), (p1,cB,0.5), (p2,cA,0.8),
(p2,cC,0.7)} over one exam, `get_top_chunks_for_exam` with strategy
`"frequency"` and limit 5 returns the chunks in the order [cA, cB, cC]
with aggregate scores 2, 1, 1 — the aggregate being the count of distinct
problems that retrieved the chunk, ties broken by chunk id ascending. -/
theorem frequency_ranking_on_claim_log :
    (get_top_chunks_for_exam rankingClaimState "exam-1" "frequency" 5).map
      (fun r => (r.chunk_id, r.score)) =
      [("cA", 2), ("cB", 1), ("cC", 1)] := by
  decide

/-- C3: on the same retrieval log, `get_top_chunks_for_exam` with strategy
`"weighted_sum"` and limit 5 returns [cA, cC, cB] with aggregate scores
1.7, 0.7, 0.5 — the aggregate being the sum of all similarity scores logged
for the chunk, in descending order. -/
theorem weighted_sum_ranking_on_claim_log :
    (get_top_chunks_for_exam rankingClaimState "exam-1" "weighted_sum" 5).map
      (fun r => (r.chunk_id, r.score)) =
      [("cA", 17/10), ("cC", 7/10), ("cB", 1/2)] := by
  norm_num [get_top_chunks_for_exam, rankingClaimState, joinedLogRows,
    ranking_expression_weighted_sum, sortByLe, insertLe, topChunkLe,
    List.dedup, List.filter, List.map, List.sum, List.foldr, List.any,
    List.take]

/-! ### Scoped search and similarity clamping -/

/-- The chunk from `doc-1` of the scoped-search scenario (the repository's
own `test_vector_store_allows_exam_scoping` uses the same shape). -/
def bioChunk : Chunk :=
  { chunk_id := "chunk-photosynthesis", doc_id := "doc-1"
    chunk_text := "Photosynthesis converts sunlight into chemical energy."
    chunk_index := 0 }

/-- The chunk from `doc-2` of the scoped-search scenario. -/
def astroChunk : Chunk :=
  { chunk_id := "chunk-astronomy", doc_id := "doc-2"
    chunk_text := "Stars are massive luminous spheres of plasma."
    chunk_index := 0 }

/-- C1: `VectorStore.search` performs no document scoping at all: its
signature has no `allowedDocIds` parameter (visible in the type of
`search`, which takes only the index and `k`), so on a store holding chunks
from `doc-1` and `doc-2` the `doc-1` chunk is returned whenever the index
ranks it — the restriction spec and tests demand cannot happen.  The
repository's own test `test_vector_store_allows_exam_scoping` and the
caller `retrieve_chunks` pass `allowed_doc_ids=` to this function, which in
Python fails with `TypeError: search() got an unexpected keyword
argument`. -/
theorem search_returns_doc1_chunk_despite_scope :
    (search (fun _ => [(bioChunk, 1/100), (astroChunk, 2/5)]) 2).map
      (fun r => r.chunk.doc_id) = ["doc-1", "doc-2"] := by
  decide

/-- Normalization of the astronomy chunk text (evaluation helper). -/
theorem normalize_astro :
    normalize_chunk_text "Stars are massive luminous spheres of plasma." =
      "stars are massive luminous spheres of plasma." := by
  decide

/-- C6: `search` reports `similarity = 1 - distance` with NO clamping to
[0,1] (`similarity_of_distance` is the raw subtraction of line 92): for a
hit at cosine distance 2 — an opposite-direction vector, which the cosine
space does produce — the reported `similarity_score` is −1, outside [0,1],
contradicting both the spec and the function's own docstring
("1 = identical, 0 = opposite"). -/
theorem search_similarity_not_clamped :
    (search (fun _ => [(astroChunk, 2)]) 1).map
      (fun r => r.similarity_score) = [-1] ∧ (-1 : ℚ) < 0 := by
  constructor
  · norm_num [search, fetch_k, deduplicate_hits, dedupAux,
      similarity_of_distance, astroChunk, normalize_astro, List.map]
  · norm_num

/-! ### Structural properties of `_deduplicate_hits` -/

/-- The deduplicated list is a sublist of the input: hits are only ever
dropped, never reordered or duplicated. -/
theorem dedupAux_sublist (limit : Int) :
    ∀ (hs : List VectorSearchResult) (seen : List String) (count : Int),
      (dedupAux limit hs seen count).Sublist hs
  | [], _, _ => by simp [dedupAux]
  | h :: hs, seen, count => by
    simp only [dedupAux]
    split
    · exact (dedupAux_sublist limit hs seen count).cons h
    · split
      · exact (dedupAux_sublist limit hs seen count).cons h
      · split
        · exact (List.nil_sublist hs).cons₂ h
        · exact (dedupAux_sublist limit hs _ _).cons₂ h

/-- The deduplication loop accepts at most `limit - count` further hits. -/
theorem dedupAux_length (limit : Int) :
    ∀ (hs : List VectorSearchResult) (seen : List String) (count : Int),
      count < limit →
      ((dedupAux limit hs seen count).length : Int) ≤ limit - count
  | [], _, _, h => by simp [dedupAux]; omega
  | h :: hs, seen, count, hlt => by
    simp only [dedupAux]
    split
    · exact dedupAux_length limit hs seen count hlt
    · split
      · exact dedupAux_length limit hs seen count hlt
      · split
        · simp; omega
        · rename_i hbreak
          have hcount : count + 1 < limit := by omega
          have ih := dedupAux_length limit hs
            (normalize_chunk_text h.chunk.chunk_text :: seen) (count + 1)
            hcount
          simp only [List.length_cons]
          push_cast
          omega

/-- Every accepted hit has a normalized text that is non-empty and not in
`seen`, and the normalized texts of the accepted hits are pairwise
distinct. -/
theorem dedupAux_norm_nodup (limit : Int) :
    ∀ (hs : List VectorSearchResult) (seen : List String) (count : Int),
      (∀ x ∈ dedupAux limit hs seen count,
        normalize_chunk_text x.chunk.chunk_text ∉ seen ∧
          normalize_chunk_text x.chunk.chunk_text ≠ "") ∧
      ((dedupAux limit hs seen count).map
        (fun x => normalize_chunk_text x.chunk.chunk_text)).Nodup
  | [], _, _ => by simp [dedupAux]
  | h :: hs, seen, count => by
    simp only [dedupAux]
    split
    · exact dedupAux_norm_nodup limit hs seen count
    · split
      · exact dedupAux_norm_nodup limit hs seen count
      · rename_i hne hnotin
        split
        · refine ⟨?_, by simp⟩
          intro x hx
          rw [List.mem_singleton] at hx
          subst hx
          exact ⟨hnotin, hne⟩
        · have ih := dedupAux_norm_nodup limit hs
            (normalize_chunk_text h.chunk.chunk_text :: seen) (count + 1)
          constructor
          · intro x hx
            rcases List.mem_cons.mp hx with hx | hx
            · subst hx; exact ⟨hnotin, hne⟩
            · have := (ih.1 x hx).1
              simp only [List.mem_cons, not_or] at this
              exact ⟨this.2, (ih.1 x hx).2⟩
          · simp only [List.map_cons, List.nodup_cons]
            refine ⟨?_, ih.2⟩
            intro hmem
            rcases List.mem_map.mp hmem with ⟨x, hx, hx2⟩
            have := (ih.1 x hx).1
            simp only [List.mem_cons, not_or] at this
            exact this.1 hx2

/-- C5: `search` returns at most `k` results, their normalized chunk texts
are pairwise distinct (so of two chunks identical after whitespace/case
normalization at most one survives, also for `k = 3`), the output is a
sublist of the similarity-converted index hits, and when the index returns
its rows in ascending-distance order the surviving results are in
descending `similarity_score` order. -/
theorem search_dedups_and_keeps_order (index : Int → List (Chunk × ℚ))
    (k : Int) (hk : 1 ≤ k) :
    ((search index k).length : Int) ≤ k ∧
    ((search index k).map
      (fun r => normalize_chunk_text r.chunk.chunk_text)).Nodup ∧
    (search index k).Sublist
      ((index (fetch_k k)).map fun r =>
        { chunk := r.1, similarity_score := similarity_of_distance r.2 }) ∧
    ((index (fetch_k k)).Pairwise (fun a b => a.2 ≤ b.2) →
      (search index k).Pairwise
        (fun a b => b.similarity_score ≤ a.similarity_score)) := by
  have hsub := dedupAux_sublist k
    ((index (fetch_k k)).map fun r =>
      { chunk := r.1, similarity_score := similarity_of_distance r.2 }) [] 0
  refine ⟨?_, ?_, ?_, ?_⟩
  · have := dedupAux_length k
      ((index (fetch_k k)).map fun r =>
        { chunk := r.1, similarity_score := similarity_of_distance r.2 })
      [] 0 (by omega)
    simpa [search, deduplicate_hits] using this
  · have := dedupAux_norm_nodup k
      ((index (fetch_k k)).map fun r =>
        { chunk := r.1, similarity_score := similarity_of_distance r.2 })
      [] 0
    simpa [search, deduplicate_hits] using this.2
  · simpa [search, deduplicate_hits] using hsub
  · intro hsorted
    have hmap : (((index (fetch_k k)).map fun r =>
        ({ chunk := r.1, similarity_score := similarity_of_distance r.2 } :
          VectorSearchResult))).Pairwise
        (fun a b => b.similarity_score ≤ a.similarity_score) := by
      rw [List.pairwise_map]
      refine hsorted.imp ?_
      intro a b hab
      simp only [similarity_of_distance]
      linarith
    have : (search index k).Sublist
        ((index (fetch_k k)).map fun r =>
          { chunk := r.1, similarity_score := similarity_of_distance r.2 }) := by
      simpa [search, deduplicate_hits] using hsub
    exact hmap.sublist this

/-- A store whose index holds two chunks with texts identical after
normalization ("Repeat me" / "Repeat   me") plus a distinct third chunk. -/
def dupIndex : Int → List (Chunk × ℚ) := fun _ =>
  [({ chunk_id := "chunk-1", doc_id := "doc-1", chunk_text := "Repeat me",
      chunk_index := 0 }, 1/100),
   ({ chunk_id := "chunk-2", doc_id := "doc-2", chunk_text := "Repeat   me",
      chunk_index := 1 }, 3/100),
   ({ chunk_id := "chunk-3", doc_id := "doc-3", chunk_text := "Different chunk",
      chunk_index := 0 }, 1/2)]

/-- Witness for C5 at the duplicate-text store with `k = 3`. -/
theorem search_dedups_and_keeps_order_witness :
    ((search dupIndex 3).length : Int) ≤ 3 ∧
    ((search dupIndex 3).map
      (fun r => normalize_chunk_text r.chunk.chunk_text)).Nodup ∧
    (search dupIndex 3).Sublist
      ((dupIndex (fetch_k 3)).map fun r =>
        { chunk := r.1, similarity_score := similarity_of_distance r.2 }) ∧
    ((dupIndex (fetch_k 3)).Pairwise (fun a b => a.2 ≤ b.2) →
      (search dupIndex 3).Pairwise
        (fun a b => b.similarity_score ≤ a.similarity_score)) :=
  search_dedups_and_keeps_order dupIndex 3 (by decide)

/-- On an all-whitespace character list, Python's `str.split()` produces no
words. -/
theorem py_split_aux_all_ws : ∀ cs : List Char,
    (∀ c ∈ cs, c.isWhitespace = true) → py_split_aux cs [] = []
  | [], _ => rfl
  | c :: cs, h => by
    have hc : c.isWhitespace = true := h c (List.mem_cons_self c cs)
    simp only [py_split_aux, hc, if_true]
    simpa using py_split_aux_all_ws cs
      (fun d hd => h d (List.mem_cons_of_mem c hd))

/-- An empty or whitespace-only chunk text normalizes to the empty
string. -/
theorem normalize_all_ws (s : String)
    (h : s.data.all Char.isWhitespace = true) :
    normalize_chunk_text s = "" := by
  have hsplit : py_split s = [] :=
    py_split_aux_all_ws s.data (by simpa [List.all_eq_true] using h)
  show py_lower (py_strip (py_join " " (py_split s))) = ""
  rw [hsplit]
  decide

/-- C9: for every list of hits and every positive limit, the deduplicated
output of `_deduplicate_hits` never contains a hit whose chunk text is
empty or whitespace-only — such hits are skipped (`if not normalized:
continue`) before the limit is applied. -/
theorem dedup_drops_whitespace_only_hits (hits : List VectorSearchResult)
    (limit : Int) (hpos : 0 < limit) :
    ∀ h ∈ deduplicate_hits hits limit,
      h.chunk.chunk_text.data.all Char.isWhitespace = false := by
  intro h hmem
  simp only [deduplicate_hits] at hmem
  have hne := ((dedupAux_norm_nodup limit hits [] 0).1 h hmem).2
  cases hws : h.chunk.chunk_text.data.all Char.isWhitespace with
  | false => rfl
  | true => exact absurd (normalize_all_ws _ hws) hne

/-- A whitespace-only hit that the index ranks first. -/
def wsHit : VectorSearchResult :=
  { chunk := { chunk_id := "chunk-ws", doc_id := "doc-1",
               chunk_text := "   ", chunk_index := 0 },
    similarity_score := 1 }

/-- A hit with real content, ranked below `wsHit`. -/
def goodHit : VectorSearchResult :=
  { chunk := { chunk_id := "chunk-good", doc_id := "doc-1",
               chunk_text := "Real content", chunk_index := 1 },
    similarity_score := 0 }

/-- Witness for C9: with limit 1 and the whitespace-only hit ranked first,
no returned hit is whitespace-only — the whitespace hit is discarded and
the real hit survives. -/
theorem dedup_drops_whitespace_only_hits_witness :
    (0 : Int) < 1 ∧
    (∀ h ∈ deduplicate_hits [wsHit, goodHit] 1,
      h.chunk.chunk_text.data.all Char.isWhitespace = false) ∧
    deduplicate_hits [wsHit, goodHit] 1 = [goodHit] :=
  ⟨by decide, dedup_drops_whitespace_only_hits [wsHit, goodHit] 1 (by decide),
    by decide⟩

/-! ### `retrieve_chunks` guards -/

/-- C10: for every injected store (the universally quantified `store`
shows no vector search is consulted), `retrieve_chunks` raises `TypeError`
on a non-string question, raises `ValueError` on a string question whenever
`k ≤ 0`, and for `k > 0` returns `[]` whenever the question strips to the
empty string. -/
theorem retrieve_chunks_guards (k : Int) (s : String)
    (store : String → Int → List VectorSearchResult) :
    retrieve_chunks .nonString k store = .error .typeError ∧
    (k ≤ 0 → retrieve_chunks (.ofString s) k store = .error .valueError) ∧
    (0 < k → py_strip s = "" →
      retrieve_chunks (.ofString s) k store = .ok []) := by
  refine ⟨rfl, ?_, ?_⟩
  · intro hk
    simp [retrieve_chunks, hk]
  · intro hk hs
    have hk2 : ¬ k ≤ 0 := by omega
    simp [retrieve_chunks, hs, hk2]

/-- Witness for C10 at `k = 0` and `k = 3` with a whitespace question and
an arbitrary concrete store. -/
theorem retrieve_chunks_guards_witness :
    retrieve_chunks .nonString 0 (fun _ _ => []) = .error .typeError ∧
    retrieve_chunks (.ofString "  ") 0 (fun _ _ => []) = .error .valueError ∧
    retrieve_chunks (.ofString " \t ") 3 (fun _ _ => [wsHit]) = .ok [] :=
  ⟨(retrieve_chunks_guards 0 "  " (fun _ _ => [])).1,
    (retrieve_chunks_guards 0 "  " (fun _ _ => [])).2.1 (by decide),
    (retrieve_chunks_guards 3 " \t " (fun _ _ => [wsHit])).2.2 (by decide)
      (by decide)⟩

/-! ### Document dedup, scoped by course -/

/-- The invariant of claim C7: at most one document row per
`(course_id, content_hash)` — no two rows agree on both. -/
def DocInvariant (documents : List DocumentRow) : Prop :=
  documents.Pairwise fun d e =>
    ¬(d.course_id = e.course_id ∧ d.content_hash = e.content_hash)

/-- `find?` over a list extended by one element, when the prefix has no
match. -/
theorem find?_append_none {α : Type} (p : α → Bool) :
    ∀ (l : List α) (x : α), l.find? p = none →
      (l ++ [x]).find? p = (if p x then some x else none)
  | [], x, _ => by cases hpx : p x <;> simp [List.find?, hpx]
  | a :: l, x, h => by
    simp only [List.find?] at h
    cases hpa : p a with
    | true => simp [hpa] at h
    | false =>
      rw [hpa] at h
      rw [List.cons_append]
      simp only [List.find?, hpa]
      exact find?_append_none p l x h

/-- C7: `add_document` maintains the at-most-one-row-per
`(course_id, content_hash)` invariant; calling it twice with the same text
and course inserts exactly one row and returns the same `doc_id` both times
(the second call returns the existing row without inserting), while the
same text under a second, different course inserts a second, distinct
row. -/
theorem add_document_dedup_scoped (hash : String → String)
    (documents : List DocumentRow) (filename text c₁ c₂ id1 id2 id3 : String)
    (hc1 : c₁ ≠ "") (hc2 : c₂ ≠ "") (hcc : c₁ ≠ c₂)
    (h1 : get_document_by_hash documents c₁ (hash text) = none)
    (h2 : get_document_by_hash documents c₂ (hash text) = none)
    (hinv : DocInvariant documents) :
    (∀ nid fn tx cid d s',
      add_document hash documents nid fn tx cid = .ok (d, s') →
        DocInvariant s') ∧
    ∃ d1 s1, add_document hash documents id1 filename text c₁ = .ok (d1, s1) ∧
      s1 = documents ++ [d1] ∧ d1.doc_id = id1 ∧ d1.course_id = c₁ ∧
      add_document hash s1 id2 filename text c₁ = .ok (d1, s1) ∧
      DocInvariant s1 ∧
      ∃ d2 s2, add_document hash s1 id3 filename text c₂ = .ok (d2, s2) ∧
        s2 = s1 ++ [d2] ∧ d2.course_id = c₂ ∧ d2 ≠ d1 ∧ DocInvariant s2 := by
  have fresh_inv : ∀ (cid tx : String),
      get_document_by_hash documents cid (hash tx) = none →
      ∀ nid fn, DocInvariant
        (documents ++ [newDocumentRow nid fn tx cid (hash tx)]) := by
    intro cid tx hfind nid fn
    rw [DocInvariant, List.pairwise_append]
    refine ⟨hinv, by simp, ?_⟩
    intro a ha b hb
    rw [List.mem_singleton] at hb
    subst hb
    have hnot := List.find?_eq_none.mp hfind a ha
    simpa [newDocumentRow] using hnot
  constructor
  · intro nid fn tx cid d s' hadd
    by_cases hcid : cid = ""
    · simp [add_document, hcid] at hadd
    · rw [add_document, if_neg hcid] at hadd
      cases hfind : get_document_by_hash documents cid (hash tx) with
      | some e =>
        rw [hfind] at hadd
        simp only [Except.ok.injEq, Prod.mk.injEq] at hadd
        rw [← hadd.2]
        exact hinv
      | none =>
        rw [hfind] at hadd
        simp only [Except.ok.injEq, Prod.mk.injEq] at hadd
        rw [← hadd.2]
        exact fresh_inv cid tx hfind nid fn
  · have key1 :
        add_document hash documents id1 filename text c₁ =
          .ok (newDocumentRow id1 filename text c₁ (hash text),
            documents ++ [newDocumentRow id1 filename text c₁ (hash text)]) := by
      rw [add_document, if_neg hc1, h1]
    refine ⟨_, _, key1, rfl, rfl, rfl, ?_, fresh_inv c₁ text h1 id1 filename,
      ?_⟩
    · rw [add_document, if_neg hc1, get_document_by_hash,
        find?_append_none _ _ _ h1]
      simp [newDocumentRow]
    · have hfind2 : get_document_by_hash
          (documents ++ [newDocumentRow id1 filename text c₁ (hash text)])
          c₂ (hash text) = none := by
        rw [get_document_by_hash, find?_append_none _ _ _ h2]
        simp [newDocumentRow, hcc]
      have key3 :
          add_document hash
            (documents ++ [newDocumentRow id1 filename text c₁ (hash text)])
            id3 filename text c₂ =
            .ok (newDocumentRow id3 filename text c₂ (hash text),
              (documents ++ [newDocumentRow id1 filename text c₁ (hash text)])
                ++ [newDocumentRow id3 filename text c₂ (hash text)]) := by
        rw [add_document, if_neg hc2, hfind2]
      refine ⟨_, _, key3, rfl, rfl, ?_, ?_⟩
      · intro heq
        exact hcc ((congrArg DocumentRow.course_id heq).symm)
      · rw [DocInvariant, List.pairwise_append]
        refine ⟨fresh_inv c₁ text h1 id1 filename, by simp, ?_⟩
        intro a ha b hb
        rw [List.mem_singleton] at hb
        subst hb
        rcases List.mem_append.mp ha with ha | ha
        · have hnot := List.find?_eq_none.mp h2 a ha
          simpa [newDocumentRow] using hnot
        · rw [List.mem_singleton] at ha
          subst ha
          simp only [newDocumentRow, not_and]
          intro hcourse
          exact absurd hcourse hcc

/-- Witness for C7: identity stand-in hasher, empty store, text "hello"
under courses `course-1` and `course-2`. -/
theorem add_document_dedup_scoped_witness :
    (∀ nid fn tx cid d s',
      add_document (fun s => s) [] nid fn tx cid = .ok (d, s') →
        DocInvariant s') ∧
    ∃ d1 s1,
      add_document (fun s => s) [] "doc-a" "notes.txt" "hello" "course-1" =
        .ok (d1, s1) ∧
      s1 = [] ++ [d1] ∧ d1.doc_id = "doc-a" ∧ d1.course_id = "course-1" ∧
      add_document (fun s => s) s1 "doc-b" "notes.txt" "hello" "course-1" =
        .ok (d1, s1) ∧
      DocInvariant s1 ∧
      ∃ d2 s2,
        add_document (fun s => s) s1 "doc-c" "notes.txt" "hello" "course-2" =
          .ok (d2, s2) ∧
        s2 = s1 ++ [d2] ∧ d2.course_id = "course-2" ∧ d2 ≠ d1 ∧
        DocInvariant s2 :=
  add_document_dedup_scoped (fun s => s) [] "notes.txt" "hello"
    "course-1" "course-2" "doc-a" "doc-b" "doc-c"
    (by decide) (by decide) (by decide) rfl rfl (List.Pairwise.nil)

/-! ### Problem numbering uniqueness -/

/-- An existing problem row whose `assignment_id` is the empty string —
non-null (not SQL `NULL`), but Python-falsy, so only the unique index
guards it. -/
def emptyAsgnRow : ProblemRow :=
  { problem_id := "p1", exam_id := "exam-1", assignment_id := some "",
    problem_number := some 1, problem_text := "first" }

/-- An existing problem row at the truthy pair `("hw-1", 1)`. -/
def hw1Row : ProblemRow :=
  { problem_id := "p1", exam_id := "exam-1", assignment_id := some "hw-1",
    problem_number := some 1, problem_text := "first" }

/-- C8: for a valid (non-empty) `exam_id`, `add_problem` raises a
constraint violation — the application-level `ValueError` or, where the
Python-falsy empty-string `assignment_id` skips that check, the unique
index's `IntegrityError` — and inserts nothing, exactly when both
`assignment_id` and `problem_number` are non-null and an existing problem
already has the same `(assignment_id, problem_number)` pair; and a problem
with null `problem_number` is always inserted successfully, whatever its
assignment. -/
theorem add_problem_unique_pair (problems : List ProblemRow)
    (new_id text exam_id : String) (asgn : Option String) (num : Option Int)
    (hex : exam_id ≠ "") :
    ((∃ e, add_problem problems new_id text exam_id asgn num = .error e ∧
        (e = .constraintViolation ∨ e = .integrityError)) ↔
      (asgn ≠ none ∧ num ≠ none ∧
        problemPairClash problems asgn num = true)) ∧
    add_problem problems new_id text exam_id asgn none =
      .ok (newProblemRow new_id text exam_id asgn none,
        problems ++ [newProblemRow new_id text exam_id asgn none]) := by
  constructor
  · cases asgn with
    | none => simp [add_problem, hex]
    | some a =>
      cases num with
      | none => simp [add_problem, hex]
      | some n =>
        by_cases hclash :
            problemPairClash problems (some a) (some n) = true
        · by_cases ha : a = ""
          · subst ha
            simp [add_problem, hex, hclash]
          · simp [add_problem, hex, ha, hclash]
        · by_cases ha : a = ""
          · subst ha
            simp [add_problem, hex, hclash]
          · simp [add_problem, hex, ha, hclash]
  · simp [add_problem, hex]

/-- Witness for C8: a clash at the truthy pair `("hw-1", 1)` raises; a
null-numbered problem under the same assignment is inserted; and at the
Python-falsy pair `("", 1)` the duplicate is still rejected, by the unique
index. -/
theorem add_problem_unique_pair_witness :
    (∃ e, add_problem [hw1Row] "p2" "second" "exam-1" (some "hw-1")
        (some 1) = .error e ∧
      (e = .constraintViolation ∨ e = .integrityError)) ∧
    add_problem [hw1Row] "p3" "third" "exam-1" (some "hw-1") none =
      .ok (newProblemRow "p3" "third" "exam-1" (some "hw-1") none,
        [hw1Row] ++ [newProblemRow "p3" "third" "exam-1" (some "hw-1") none]) ∧
    add_problem [emptyAsgnRow] "p2" "second" "exam-1" (some "") (some 1) =
      .error .integrityError :=
  ⟨(add_problem_unique_pair [hw1Row] "p2" "second" "exam-1" (some "hw-1")
      (some 1) (by decide)).1.mpr ⟨by decide, by decide, by decide⟩,
    (add_problem_unique_pair [hw1Row] "p3" "third" "exam-1" (some "hw-1")
      (some 1) (by decide)).2,
    rfl⟩

/-! ### Chunking size bounds -/

set_option maxRecDepth 8000 in
/-- Counterexample to C4 as stated: both halves of the claim fail on the
merge pass.  (1) With splitter fragments of lengths 299, 701 and 400 — each
within the splitter's 1000 bound — the merge pass joins the first two with
a newline, producing a NON-final chunk of length 1001 > 1000, because the
guard compares `len(buffer) + len(piece)` without counting the added
newline.  (2) With fragments of lengths 100 and 950, the undersized (<300)
first fragment cannot be merged (100 + 950 > 1000) and is flushed as-is, so
a non-final chunk of length 100 < 300 survives the merge pass. -/
theorem chunk_document_size_bound_counterexample :
    ((chunk_document "doc"
      [String.mk (List.replicate 299 'a'), String.mk (List.replicate 701 'b'),
        String.mk (List.replicate 400 'c')]).map
      fun c => c.chunk_text.length) = [1001, 400] ∧
    (∀ p ∈ [String.mk (List.replicate 299 'a'),
        String.mk (List.replicate 701 'b'),
        String.mk (List.replicate 400 'c')], p.length ≤ 1000) ∧
    ((chunk_document "doc"
      [String.mk (List.replicate 100 'a'),
        String.mk (List.replicate 950 'b')]).map
      fun c => c.chunk_text.length) = [100, 950] ∧
    (100 : Nat) < 300 ∧ (1000 : Nat) < 1001 := by
  refine ⟨by decide, by decide, by decide, by decide, by decide⟩

/-- Every chunk the merge loop emits is at most one character longer than
the 1000-character fragment bound: merging adds a joining newline the
guard does not count. -/
theorem mergeLoop_length_le :
    ∀ (ps : List String) (buffer : String), buffer.length ≤ 1001 →
      (∀ p ∈ ps, p.length ≤ 1000) →
      ∀ c ∈ mergeLoop buffer ps, c.length ≤ 1001
  | [], buffer, hb, _ => by
    intro c hc
    simp only [mergeLoop] at hc
    split at hc
    · simp at hc
    · rw [List.mem_singleton] at hc
      subst hc
      exact hb
  | p :: ps, buffer, hb, hp => by
    intro c hc
    have hp' : ∀ q ∈ ps, q.length ≤ 1000 := fun q hq => hp q (by simp [hq])
    have hp1000 : p.length ≤ 1000 := hp p (by simp)
    simp only [mergeLoop] at hc
    split at hc
    · exact mergeLoop_length_le ps p (by omega) hp' c hc
    · split at hc
      · rename_i hcond
        refine mergeLoop_length_le ps _ ?_ hp' c hc
        have h1 : ("\n" : String).length = 1 := rfl
        have hlen : (buffer ++ "\n" ++ p).length =
            buffer.length + 1 + p.length := by
          rw [String.length_append, String.length_append]
          omega
        omega
      · rcases List.mem_cons.mp hc with hc | hc
        · subst hc
          exact hb
        · exact mergeLoop_length_le ps p (by omega) hp' c hc

/-- A non-empty buffer is a prefix (in length) of the first chunk the merge
loop emits. -/
theorem mergeLoop_first :
    ∀ (ps : List String) (buffer : String), buffer ≠ "" →
      ∃ h t, mergeLoop buffer ps = h :: t ∧ buffer.length ≤ h.length
  | [], buffer, hb => ⟨buffer, [], by simp [mergeLoop, hb], le_refl _⟩
  | p :: ps, buffer, hb => by
    simp only [mergeLoop]
    rw [if_neg hb]
    split
    · rename_i hcond
      have hne : buffer ++ "\n" ++ p ≠ "" := by
        intro h
        have hlen := congrArg String.length h
        rw [String.length_append, String.length_append] at hlen
        have h1 : ("\n" : String).length = 1 := rfl
        have h0 : ("" : String).length = 0 := rfl
        omega
      obtain ⟨h, t, heq, hle⟩ := mergeLoop_first ps _ hne
      refine ⟨h, t, heq, le_trans ?_ hle⟩
      rw [String.length_append, String.length_append]
      omega
    · exact ⟨buffer, _, rfl, le_refl _⟩

/-- Adjacent chunks of the merge loop: when a non-final chunk is left
undersized (< 300), merging it with what follows would have overflowed —
its length plus its successor's length exceeds 1000. -/
theorem mergeLoop_chain :
    ∀ (ps : List String) (buffer : String),
      List.Chain' (fun a b => a.length < 300 → 1000 < a.length + b.length)
        (mergeLoop buffer ps)
  | [], buffer => by
    simp only [mergeLoop]
    split
    · simp
    · simp
  | p :: ps, buffer => by
    simp only [mergeLoop]
    split
    · exact mergeLoop_chain ps p
    · split
      · exact mergeLoop_chain ps _
      · rename_i hbne hcond
        rw [List.chain'_cons']
        refine ⟨?_, mergeLoop_chain ps p⟩
        intro h hh hlt
        have hgt : 1000 < buffer.length + p.length := by
          by_contra hle
          push_neg at hle
          exact hcond ⟨hlt, hle⟩
        have hpne : p ≠ "" := by
          intro he
          subst he
          have : ("" : String).length = 0 := rfl
          omega
        obtain ⟨h', t', heq, hle⟩ := mergeLoop_first ps p hpne
        rw [heq] at hh
        simp only [List.head?_cons, Option.mem_def, Option.some.injEq] at hh
        subst hh
        omega

/-- C4 amended: for every document whose splitter fragments are each at
most 1000 characters, every chunk `chunk_document` produces has text length
at most 1001 (the joining newline can push a merged chunk one character
past 1000), and whenever a non-final chunk remains under 300 characters its
length plus its successor's exceeds 1000 (it was flushed because merging
would overflow). -/
theorem chunk_document_size_bounds (doc_id : String) (pieces : List String)
    (hp : ∀ p ∈ pieces, p.length ≤ 1000) :
    (∀ c ∈ chunk_document doc_id pieces, c.chunk_text.length ≤ 1001) ∧
    List.Chain' (fun a b => a.length < 300 → 1000 < a.length + b.length)
      ((chunk_document doc_id pieces).map fun c => c.chunk_text) := by
  have hmap : ((chunk_document doc_id pieces).map fun c => c.chunk_text) =
      mergeLoop "" pieces := by
    simp only [chunk_document, List.map_map]
    exact List.enum_map_snd _
  constructor
  · intro c hc
    have hmem : c.chunk_text ∈
        (chunk_document doc_id pieces).map fun c => c.chunk_text :=
      List.mem_map_of_mem _ hc
    rw [hmap] at hmem
    exact mergeLoop_length_le pieces "" (by decide) hp _ hmem
  · rw [hmap]
    exact mergeLoop_chain pieces ""

/-- Witness for the amended C4 at two short fragments. -/
theorem chunk_document_size_bounds_witness :
    (∀ p ∈ ["hello", "world"], p.length ≤ 1000) ∧
    (∀ c ∈ chunk_document "doc" ["hello", "world"],
      c.chunk_text.length ≤ 1001) ∧
    List.Chain' (fun a b => a.length < 300 → 1000 < a.length + b.length)
      ((chunk_document "doc" ["hello", "world"]).map fun c => c.chunk_text) :=
  ⟨by decide, (chunk_document_size_bounds "doc" ["hello", "world"]
      (by decide)).1,
    (chunk_document_size_bounds "doc" ["hello", "world"] (by decide)).2⟩

end CourseMaster
